import Mathlib

/-!
Shallow embedding of the wind-direction aggregation engine of
wx-sta-agg-influx (src/main.go, src/util.go, src/wind_direction.go, and the
historical revisions in src/unnamed/part_001 and src/unnamed/part_002).

Go time values are modelled as integer nanoseconds; Go float64 angle values
and thresholds are modelled as rationals (all comparisons in the source are
order comparisons on exactly representable constants); Go's `interface´
cells of InfluxDB result rows are modelled by a `Cell` sum; a Go panic
(failed type assertion, out-of-range index, unknown-interval default branch)
is the `Failure.panicked` outcome, while a returned `error` is
`Failure.errored`.
-/

namespace WxAgg

/-- One nanosecond, the unit of embedded Go `time.Duration` values. -/
def nanosecond : Int := 1

/-- Go `time.Second` in nanoseconds. -/
def second : Int := 1000000000

/-- Go `time.Minute` in nanoseconds. -/
def minute : Int := 60 * second

/-- Go `time.Hour` in nanoseconds. -/
def hour : Int := 60 * minute

/-- From src/main.go: the product name constant. -/
def ProductName : String := "wx-station-aggregator-influx"

/-- From src/main.go: the default build version string. -/
def Version : String := "<dev>"

/-- A dynamically-typed cell of an InfluxDB result row (Go `interface`).
`timeStr t` is a Go `string` whose RFC3339 parse yields time `t` (or fails
when `t = none`); `jsonNum v` is a `json.Number` whose `Float64()` yields `v`
(or fails when `v = none`); `other` is any other dynamic type. -/
inductive Cell where
  | timeStr (t : Option Int)
  | jsonNum (v : Option ℚ)
  | other
deriving DecidableEq, Repr

/-- An InfluxDB `models.Row` (a series): column names and rows of cells. -/
structure Series where
  columns : List String
  values : List (List Cell)
deriving DecidableEq, Repr

/-- An InfluxDB `Response`: `Results` (each a list of series) and `Err`. -/
structure Response where
  results : List (List Series)
  err : String
deriving DecidableEq, Repr

/-- Outcome of `client.Query`: a transport error (`err != nil`) or a
response. -/
inductive QueryOutcome where
  | fail
  | resp (r : Response)
deriving DecidableEq, Repr

/-- How an embedded execution stops early: a Go panic or a returned error. -/
inductive Failure where
  | panicked (msg : String)
  | errored (msg : String)
deriving DecidableEq, Repr

/-- Go slice indexing: out-of-range indexing panics. -/
def goIndex {α : Type} (l : List α) (i : Nat) : Except Failure α :=
  match l.get? i with
  | some a => .ok a
  | none => .error (.panicked "runtime error: index out of range")

/-- Go type assertion `.(string)` on a result cell: panics unless the
dynamic type is `string`. -/
def assertString (c : Cell) : Except Failure (Option Int) :=
  match c with
  | .timeStr t => .ok t
  | _ => .error (.panicked "interface conversion: not a string")

/-- Go type assertion `.(json.Number)` on a result cell: panics unless the
dynamic type is `json.Number`. -/
def assertJSONNumber (c : Cell) : Except Failure (Option ℚ) :=
  match c with
  | .jsonNum v => .ok v
  | _ => .error (.panicked "interface conversion: not a json.Number")

/-- `time.Parse(time.RFC3339, s)`: the modelled parse outcome of the
string, failure becoming a returned error. -/
def parseTime (t : Option Int) : Except Failure Int :=
  match t with
  | some v => .ok v
  | none => .error (.errored "failed to parse time")

/-- `json.Number.Float64()`: the modelled parse outcome, failure becoming a
returned error. -/
def parseFloat (v : Option ℚ) : Except Failure ℚ :=
  match v with
  | some q => .ok q
  | none => .error (.errored "failed to parse wind direction")

/-- Go map read: first matching key, if any. -/
def lookupKey {α : Type} (m : List (String × α)) (k : String) : Option α :=
  (m.find? (fun p => p.1 = k)).map Prod.snd

/-- Go map write `m[k] = v`: replaces the binding for `k`, inserting it when
absent. -/
def upsert {α : Type} (m : List (String × α)) (k : String) (v : α) :
    List (String × α) :=
  m.filter (fun p => p.1 ≠ k) ++ [(k, v)]

/-- From src/wind_direction.go and src/main.go: Go `maps.Copy(dst, src)`
writes every binding of `src` into `dst`. -/
def mapsCopy (dst : List (String × String)) :
    List (String × String) → List (String × String)
  | [] => dst
  | p :: rest => mapsCopy (upsert dst p.1 p.2) rest

/-- Go `strings.Split` around a single-character separator (the source only
splits on "," and "="), implemented structurally on the character list so
that proofs can evaluate it: the empty string yields one empty piece. -/
def goSplitChar (sep : Char) (s : String) : List String :=
  (go s.data).map String.mk
where
  go : List Char → List (List Char)
  | [] => [[]]
  | c :: rest =>
    if c = sep then [] :: go rest
    else
      match go rest with
      | [] => [[c]]
      | g :: gs => (c :: g) :: gs

/-- From src/util.go: ParseTags splits the flag string on commas, requires
each piece to split on `=` into exactly two parts, and builds the tag map. -/
def ParseTags (tags : String) : Except String (List (String × String)) :=
  go (goSplitChar ',' tags) []
where
  go : List String → List (String × String) → Except String (List (String × String))
  | [], retv => .ok retv
  | tag :: rest, retv =>
    match goSplitChar '=' tag with
    | [k, v] => go rest (upsert retv k v)
    | _ => .error ("invalid tag: " ++ tag)

/-- The single-quote character, used by the where-clause builder. -/
def sq : String := String.singleton (Char.ofNat 39)

/-- From src/util.go: PartialWhereClauseForTags returns the empty string for
an empty tag map and otherwise an `AND`-joined conjunction of
single-quoted equality terms. -/
def PartialWhereClauseForTags (tags : List (String × String)) : String :=
  if tags.length = 0 then ""
  else " AND " ++ String.intercalate " AND "
    (tags.map (fun p => p.1 ++ "=" ++ sq ++ p.2 ++ sq))

/-- From src/wind_direction.go: the interval identifier constants. -/
def wdInterval6h : String := "6h"

/-- Interval identifier constant. -/
def wdInterval3h : String := "3h"

/-- Interval identifier constant. -/
def wdInterval1h : String := "1h"

/-- Interval identifier constant. -/
def wdInterval30m : String := "30m"

/-- Interval identifier constant. -/
def wdInterval15m : String := "15m"

/-- Interval identifier constant. -/
def wdInterval5m : String := "5m"

/-- From src/wind_direction.go lines 37-46: the canonical
descending-duration enumeration of intervals. -/
def allWindDirectionIntervals : List String :=
  [wdInterval6h, wdInterval3h, wdInterval1h, wdInterval30m, wdInterval15m,
   wdInterval5m]

/-- From src/wind_direction.go lines 48-65: interval duration lookup; the
default switch branch panics. -/
def windDirIntervalToDuration (interval : String) : Except Failure Int :=
  if interval = wdInterval6h then .ok (6 * hour)
  else if interval = wdInterval3h then .ok (3 * hour)
  else if interval = wdInterval1h then .ok hour
  else if interval = wdInterval30m then .ok (30 * minute)
  else if interval = wdInterval15m then .ok (15 * minute)
  else if interval = wdInterval5m then .ok (5 * minute)
  else .error (.panicked ("unknown interval: " ++ interval))

/-- Total companion of `windDirIntervalToDuration` (0 on the panic branch),
used to state theorems. -/
def durOfD (interval : String) : Int :=
  match windDirIntervalToDuration interval with
  | .ok d => d
  | .error _ => 0

/-- From src/wind_direction.go lines 67-84: maximum staleness per interval;
the default switch branch panics. -/
def maxTimeBetweenAggsForWindDirInterval (interval : String) :
    Except Failure Int :=
  if interval = wdInterval6h then .ok (1 * hour)
  else if interval = wdInterval3h then .ok (40 * minute)
  else if interval = wdInterval1h then .ok (20 * minute)
  else if interval = wdInterval30m then .ok (10 * minute)
  else if interval = wdInterval15m then .ok (5 * minute)
  else if interval = wdInterval5m then .ok (2 * minute + 30 * second)
  else .error (.panicked ("unknown interval: " ++ interval))

/-- From src/wind_direction.go lines 86-104: the pair (max SD for secondary
intercardinal, max SD for primary intercardinal) per interval; the default
switch branch panics. -/
def stdDevThresholdsForWindDirIntervalCardinalResult (interval : String) :
    Except Failure (ℚ × ℚ) :=
  if interval = wdInterval6h then .ok (30, 38)
  else if interval = wdInterval3h then .ok (35, 40)
  else if interval = wdInterval1h then .ok (38, 43)
  else if interval = wdInterval30m then .ok (44, 50)
  else if interval = wdInterval15m then .ok (50, 54)
  else if interval = wdInterval5m then .ok (56, 60)
  else .error (.panicked ("unknown interval: " ++ interval))

/-- From src/wind_direction.go line 107: the mean result field name. -/
def wdMeanResultFieldName (field interval : String) : String :=
  field ++ "_mean_" ++ interval

/-- From src/wind_direction.go line 111: the standard-deviation result field
name. -/
def wdStdDevResultFieldName (field interval : String) : String :=
  field ++ "_stddev_" ++ interval

/-- From src/wind_direction.go line 115: the intercardinal result field
name. -/
def wdMeanIntercardinalResultFieldName (field interval : String) : String :=
  field ++ "_mean_intercardinal_" ++ interval

/-- Compass-string resolution of the external `libwx.DirectionStr`
formatter: `p1` is the coarse 8-point resolution, `p2` the fine 16-point
resolution. -/
inductive DirPrecision where
  | p1
  | p2
deriving DecidableEq, Repr

/-- The classification label written to the intercardinal field: either the
literal "VAR" or the (symbolic) compass string of the mean at the given
resolution. -/
inductive CardLabel where
  | var
  | dirStr (mean : ℚ) (prec : DirPrecision)
deriving DecidableEq, Repr

/-- A value stored in the output point's field set. -/
inductive FieldValue where
  | num (q : ℚ)
  | str (card : CardLabel)
deriving DecidableEq, Repr

/-- From src/wind_direction.go lines 236-244: the three-tier classification
of a bucket's weighted circular standard deviation against the interval's
two cutoffs. -/
def classifyCard (stdDev maxSecInt maxInt mean : ℚ) : CardLabel :=
  if stdDev > maxInt then .var
  else if stdDev > maxSecInt then .dirStr mean .p1
  else .dirStr mean .p2

/-- Modelled from the spec: the external circular-statistics collaborator's
degree clamp (`libwx.Degree(wd).Clamped()`), which range-reduces a raw
angle into the interval from 0 inclusive to 360 exclusive. -/
def clampDeg (x : ℚ) : ℚ := x - 360 * ⌊x / 360⌋

/-- From src/wind_direction.go lines 128-163: the staleness probe of one
interval.  A transport or response error fails the run; a response with no
results or no series marks the interval due; a malformed shape fails the
run; otherwise the stored point's timestamp is parsed and the interval is
due exactly when the elapsed time exceeds the interval's maximum
staleness.  Go type assertions and out-of-range indexing panic. -/
def stalenessStep (now : Int) (interval : String) (q : QueryOutcome) :
    Except Failure Bool :=
  match q with
  | .fail => .error (.errored "InfluxDB query failed")
  | .resp r =>
    if r.err ≠ "" then .error (.errored ("InfluxDB query failed: " ++ r.err))
    else if r.results.length = 0 ∨ (r.results.headD []).length = 0 then
      .ok true
    else if r.results.length > 1 then .error (.errored "expected 1 result")
    else if (r.results.headD []).length > 1 then
      .error (.errored "expected 1 series")
    else
      match goIndex r.results 0 with
      | .error e => .error e
      | .ok result0 =>
        match goIndex result0 0 with
        | .error e => .error e
        | .ok series0 =>
          match goIndex series0.columns 0 with
          | .error e => .error e
          | .ok col0 =>
            if col0 ≠ "time" then
              .error (.errored "expected first column to be time")
            else
              match goIndex series0.values 0 with
              | .error e => .error e
              | .ok row0 =>
                match goIndex row0 0 with
                | .error e => .error e
                | .ok cell0 =>
                  match assertString cell0 with
                  | .error e => .error e
                  | .ok tRaw =>
                    match parseTime tRaw with
                    | .error e => .error e
                    | .ok t =>
                      match maxTimeBetweenAggsForWindDirInterval interval with
                      | .error e => .error e
                      | .ok m => .ok (decide (now - t > m))

/-- From src/wind_direction.go lines 125-164: the staleness loop, appending
each due interval to the todo list in canonical order. -/
def planAux (now : Int) :
    List (String × QueryOutcome) → List String → Except Failure (List String)
  | [], acc => .ok acc
  | (i, q) :: rest, acc =>
    match stalenessStep now i q with
    | .error e => .error e
    | .ok due => planAux now rest (if due then acc ++ [i] else acc)

/-- The full staleness plan: one probe outcome per interval of the
canonical enumeration. -/
def planIntervals (now : Int) (qs : List QueryOutcome) :
    Except Failure (List String) :=
  planAux now (allWindDirectionIntervals.zip qs) []

/-- From src/wind_direction.go lines 174-203: validation of the single bulk
sample-fetch response.  No results or no series means no data (`none`);
shape and column-name mismatches fail the run; otherwise the single series
is returned. -/
def bulkSeries (field : String) (q : QueryOutcome) :
    Except Failure (Option Series) :=
  match q with
  | .fail => .error (.errored "InfluxDB query failed")
  | .resp r =>
    if r.err ≠ "" then .error (.errored ("InfluxDB query failed: " ++ r.err))
    else if r.results.length = 0 ∨ (r.results.headD []).length = 0 then
      .ok none
    else if r.results.length > 1 then .error (.errored "expected 1 result")
    else if (r.results.headD []).length > 1 then
      .error (.errored "expected 1 series")
    else
      match goIndex r.results 0 with
      | .error e => .error e
      | .ok result0 =>
        match goIndex result0 0 with
        | .error e => .error e
        | .ok series0 =>
          match goIndex series0.columns 0 with
          | .error e => .error e
          | .ok col0 =>
            if col0 ≠ "time" then
              .error (.errored "expected first column to be time")
            else
              match goIndex series0.columns 1 with
              | .error e => .error e
              | .ok col1 =>
                if col1 ≠ field then
                  .error (.errored "unexpected second column")
                else .ok (some series0)

/-- Go map read of a sample bucket: a missing key reads as the nil slice. -/
def bucketGet (bs : List (String × List ℚ)) (k : String) : List ℚ :=
  (lookupKey bs k).getD []

/-- Go `m[k] = append(m[k], v)` on a sample bucket map. -/
def bucketAppend (bs : List (String × List ℚ)) (k : String) (v : ℚ) :
    List (String × List ℚ) :=
  upsert bs k (bucketGet bs k ++ [v])

/-- From src/wind_direction.go lines 222-226: a parsed row is admitted to
the bucket of every due interval whose duration its age does not exceed,
with the clamped angle. -/
def admitRow (now t : Int) (wd : ℚ) :
    List String → List (String × List ℚ) → Except Failure (List (String × List ℚ))
  | [], bs => .ok bs
  | i :: rest, bs =>
    match windDirIntervalToDuration i with
    | .error e => .error e
    | .ok d =>
      admitRow now t wd rest
        (if now - t ≤ d then bucketAppend bs i (clampDeg wd) else bs)

/-- From src/wind_direction.go lines 211-227: parsing one fetched row.  The
time cell is asserted to be a string and parsed; the angle cell is asserted
to be a json.Number and parsed; then the row is admitted per interval. -/
def parseRow (now : Int) (todo : List String) (bs : List (String × List ℚ))
    (row : List Cell) : Except Failure (List (String × List ℚ)) :=
  match goIndex row 0 with
  | .error e => .error e
  | .ok c0 =>
    match assertString c0 with
    | .error e => .error e
    | .ok tRaw =>
      match parseTime tRaw with
      | .error e => .error e
      | .ok t =>
        match goIndex row 1 with
        | .error e => .error e
        | .ok c1 =>
          match assertJSONNumber c1 with
          | .error e => .error e
          | .ok wdRaw =>
            match parseFloat wdRaw with
            | .error e => .error e
            | .ok wd => admitRow now t wd todo bs

/-- The row loop over the fetched series values. -/
def bucketRows (now : Int) (todo : List String) :
    List (List Cell) → List (String × List ℚ) → Except Failure (List (String × List ℚ))
  | [], bs => .ok bs
  | row :: rest, bs =>
    match parseRow now todo bs row with
    | .error e => .error e
    | .ok bs' => bucketRows now todo rest bs'

/-- From src/wind_direction.go lines 207-210: every due interval starts
with an empty bucket. -/
def initBuckets (todo : List String) : List (String × List ℚ) :=
  go todo []
where
  go : List String → List (String × List ℚ) → List (String × List ℚ)
  | [], bs => bs
  | i :: rest, bs => go rest (upsert bs i [])

/-- From src/wind_direction.go lines 229-248: the aggregation loop.  An
interval with an empty bucket is skipped; otherwise the external circular
mean and standard deviation of its bucket are computed, the label is
classified against the interval's cutoffs, and the three result fields are
written into the field map. -/
def buildFieldsAux (field : String) (meanFn stdFn : List ℚ → ℚ)
    (buckets : List (String × List ℚ)) :
    List String → List (String × FieldValue) → Except Failure (List (String × FieldValue))
  | [], fs => .ok fs
  | i :: rest, fs =>
    if (bucketGet buckets i).length = 0 then
      buildFieldsAux field meanFn stdFn buckets rest fs
    else
      let mean := meanFn (bucketGet buckets i)
      let stdDev := stdFn (bucketGet buckets i)
      match stdDevThresholdsForWindDirIntervalCardinalResult i with
      | .error e => .error e
      | .ok th =>
        let card := classifyCard stdDev th.1 th.2 mean
        buildFieldsAux field meanFn stdFn buckets rest
          (upsert
            (upsert (upsert fs (wdMeanResultFieldName field i) (.num mean))
              (wdStdDevResultFieldName field i) (.num stdDev))
            (wdMeanIntercardinalResultFieldName field i) (.str card))

/-- The identity tag value stamped into every written point:
`fmt.Sprintf of ProductName slash Version`. -/
def aggregatorIdentityTag : String := ProductName ++ "/" ++ Version

/-- An output point as handed to the InfluxDB client. -/
structure Point where
  measurement : String
  tags : List (String × String)
  fields : List (String × FieldValue)
  time : Int
deriving DecidableEq, Repr

/-- Modelled from the external InfluxDB client contract: `NewPoint` fails
(a returned error, never a panic) when the field set is empty and
otherwise yields a point stamped with the given timestamp. -/
def newPoint (measurement : String) (tags : List (String × String))
    (fields : List (String × FieldValue)) (t : Int) : Except Failure Point :=
  if fields.length = 0 then
    .error (.errored "failed to create InfluxDB point")
  else .ok ⟨measurement, tags, fields, t⟩

/-- Modelled from the external retry collaborator (`retry.Do` with
`retry.Attempts n`, `n` positive): the batched write succeeds exactly when
some attempt within the budget succeeds. -/
def retryDo (attempts : Nat) (writeOk : Nat → Bool) : Bool :=
  (List.range attempts).any writeOk

/-- The aggregation arguments of src/wind_direction.go lines 15-26 that the
run's observable behaviour depends on (connection handles and the query
timeout drive only the modelled I/O outcomes). -/
structure WindDirectionAggArgs where
  measurementFrom : String
  measurementTo : String
  windDirectionField : String
  tags : List (String × String)
  influxWriteRetries : Nat

/-- The modelled I/O environment of one run: the staleness probe outcome per
canonical interval, the bulk fetch outcome, and the external circular mean
and standard-deviation collaborators. -/
structure RunEnv where
  stalenessQs : List QueryOutcome
  bulkQ : QueryOutcome
  meanFn : List ℚ → ℚ
  stdFn : List ℚ → ℚ

/-- Outcome of the phase of `WindDirectionAgg` before the batched write:
nothing due, nothing fetched, or a built output point. -/
inductive PrewriteResult where
  | noIntervals
  | noData
  | point (p : Point)
deriving DecidableEq, Repr

/-- From src/wind_direction.go lines 118-271: the run up to the batched
write.  The staleness plan decides the due intervals; an empty plan ends
the run; the bulk response is validated; rows are parsed and bucketed; the
per-interval fields are built; the tag map is the identity tag overlaid
with the caller tags; the point is stamped at the run time `now`. -/
def prewrite (args : WindDirectionAggArgs) (env : RunEnv) (now : Int) :
    Except Failure PrewriteResult :=
  match planIntervals now env.stalenessQs with
  | .error e => .error e
  | .ok todo =>
    if todo.length = 0 then .ok .noIntervals
    else
      match bulkSeries args.windDirectionField env.bulkQ with
      | .error e => .error e
      | .ok none => .ok .noData
      | .ok (some s) =>
        match bucketRows now todo s.values (initBuckets todo) with
        | .error e => .error e
        | .ok buckets =>
          match buildFieldsAux args.windDirectionField env.meanFn env.stdFn
              buckets todo [] with
          | .error e => .error e
          | .ok fields =>
            match newPoint args.measurementTo
                (mapsCopy (upsert [] "aggregator" aggregatorIdentityTag)
                  args.tags)
                fields now with
            | .error e => .error e
            | .ok p => .ok (.point p)

/-- How one embedded run ends. -/
inductive RunOutcome where
  | ok
  | errored (msg : String)
  | panicked (msg : String)
deriving DecidableEq, Repr

/-- From src/wind_direction.go lines 118-283: the whole run, paired with
its non-debug log lines.  A panic aborts; a returned error fails the run;
an empty plan or empty fetch succeeds with a log line; after a built point
the batched write is retried up to the budget and its failure is logged
but the run still returns nil. -/
def windDirectionAgg (args : WindDirectionAggArgs) (env : RunEnv) (now : Int)
    (writeOk : Nat → Bool) : RunOutcome × List String :=
  match prewrite args env now with
  | .error (.panicked m) => (.panicked m, [])
  | .error (.errored m) => (.errored m, [])
  | .ok .noIntervals => (.ok, ["no intervals to calculate"])
  | .ok .noData => (.ok, ["no data to aggregate"])
  | .ok (.point _) =>
    if retryDo args.influxWriteRetries writeOk then (.ok, [])
    else (.ok, ["failed to write to Influx"])

/-- From src/unnamed/part_001 lines 173-179 and 471-477 (the
midpoint-convention revisions): the staleness read compares the elapsed
time against the stored timestamp advanced by half the window,
`time.Since(t.Add(windDirIntervalToDuration(interval)/2))`. -/
def stalenessReferenceMid (t : Int) (interval : String) : Except Failure Int :=
  match windDirIntervalToDuration interval with
  | .error e => .error e
  | .ok d => .ok (t + d / 2)

/-- From src/unnamed/part_001 lines 279-284 and 592-597 (the
midpoint-convention revisions): the written point is stamped
`now.Add(-1*windDirIntervalToDuration(interval)/2)`. -/
def wdPointTimeMid (now : Int) (interval : String) : Except Failure Int :=
  match windDirIntervalToDuration interval with
  | .error e => .error e
  | .ok d => .ok (now + -1 * d / 2)

/-- From src/wind_direction.go line 161: the end-convention staleness read
compares `time.Since(t)` directly, so its reference is the stored
timestamp itself. -/
def stalenessReferenceEnd (t : Int) (_interval : String) : Int := t

/-- From src/wind_direction.go lines 255-260: the end-convention write
stamps the output point at the run time `now` itself. -/
def wdPointTimeEnd (now : Int) (_interval : String) : Int := now

/-- A result cell whose dynamic type is the expected Go `string`. -/
def cellIsTime : Cell → Bool
  | .timeStr _ => true
  | _ => false

/-- A result cell whose dynamic type is the expected `json.Number`. -/
def cellIsNum : Cell → Bool
  | .jsonNum _ => true
  | _ => false

/-- A series whose shape the engine's raw indexing and type assertions
never panic on: at least two columns, at least one row, and every row
led by a string time cell and a json.Number angle cell. -/
def wellTypedSeries (s : Series) : Bool :=
  decide (2 ≤ s.columns.length) && decide (1 ≤ s.values.length) &&
    s.values.all (fun row =>
      match row with
      | c0 :: c1 :: _ => cellIsTime c0 && cellIsNum c1
      | _ => false)

/-- A response all of whose series are well shaped. -/
def wellTypedResponse (r : Response) : Bool :=
  r.results.all (fun res => res.all wellTypedSeries)

/-- A query outcome that cannot make the engine panic. -/
def wellTypedOutcome : QueryOutcome → Bool
  | .fail => true
  | .resp r => wellTypedResponse r

/-- An environment all of whose query outcomes are well shaped. -/
def wellTypedEnv (env : RunEnv) : Bool :=
  env.stalenessQs.all wellTypedOutcome && wellTypedOutcome env.bulkQ

/-- An embedded computation that did not abort by a Go panic. -/
def noPanic {α : Type} (e : Except Failure α) : Prop :=
  ∀ m, e ≠ .error (.panicked m)

deriving instance DecidableEq for Except

/-- A staleness probe response holding one stored point stamped `t`. -/
def staleResp (t : Int) : QueryOutcome :=
  .resp ⟨[[⟨["time"], [[.timeStr (some t)]]⟩]], ""⟩

/-- A probe response with no prior point (no series). -/
def noPriorResp : QueryOutcome := .resp ⟨[], ""⟩

/-- Concrete run arguments used by the witness scenarios. -/
def wArgs : WindDirectionAggArgs :=
  ⟨"weather_station", "weather_station_agg", "wd", [], 2⟩

/-- A witness environment at run time 0: the first five intervals hold a
fresh aggregate, only the 5-minute interval is due, and the bulk fetch
returns one fresh row with angle 10; the external collaborators report
mean 20 and standard deviation 0. -/
def wEnv : RunEnv :=
  ⟨[staleResp 0, staleResp 0, staleResp 0, staleResp 0, staleResp 0,
    noPriorResp],
   .resp ⟨[[⟨["time", "wd"], [[.timeStr (some 0), .jsonNum (some 10)]]⟩]], ""⟩,
   fun _ => 20, fun _ => 0⟩

/-- The output point the witness environment produces. -/
def wPoint : Point :=
  ⟨"weather_station_agg",
   [("aggregator", "wx-station-aggregator-influx/<dev>")],
   [("wd_mean_5m", .num 20), ("wd_stddev_5m", .num 0),
    ("wd_mean_intercardinal_5m", .str (.dirStr 20 .p2))], 0⟩

/-- Staleness probes that leave nothing to do at run time 0. -/
def freshQs : List QueryOutcome :=
  [staleResp 0, staleResp 0, staleResp 0, staleResp 0, staleResp 0,
   staleResp 0]

/-- Staleness probes that leave every interval due. -/
def allDueQs : List QueryOutcome :=
  [noPriorResp, noPriorResp, noPriorResp, noPriorResp, noPriorResp,
   noPriorResp]

/-- An environment whose first staleness response carries a time cell of
dynamic type json.Number instead of string, with every interval identifier
drawn from the policy tables. -/
def badCellEnv : RunEnv :=
  ⟨[.resp ⟨[[⟨["time"], [[.jsonNum (some 0)]]⟩]], ""⟩,
    .fail, .fail, .fail, .fail, .fail], .fail, fun _ => 0, fun _ => 0⟩

/-- An environment whose every query outcome is a transport failure. -/
def allFailEnv : RunEnv :=
  ⟨[.fail, .fail, .fail, .fail, .fail, .fail], .fail, fun _ => 0, fun _ => 0⟩

theorem find_filter_ne {α : Type} (k : String) (m : List (String × α)) :
    (m.filter (fun p => p.1 ≠ k)).find? (fun p => p.1 = k) = none := by
  rw [List.find?_eq_none]
  intro x hx
  have := List.of_mem_filter hx
  simpa using this

theorem find_filter_ne_other {α : Type} (k j : String) (hjk : j ≠ k)
    (m : List (String × α)) :
    (m.filter (fun p => p.1 ≠ k)).find? (fun p => p.1 = j)
      = m.find? (fun p => p.1 = j) := by
  induction m with
  | nil => rfl
  | cons p rest ih =>
    rw [List.filter_cons]
    by_cases hpk : p.1 = k
    · rw [if_neg (by simp [hpk])]
      rw [List.find?_cons_of_neg _
        (by simp; rw [hpk]; exact fun hh => hjk hh.symm)]
      exact ih
    · rw [if_pos (by simp [hpk])]
      by_cases hpj : p.1 = j
      · rw [List.find?_cons_of_pos _ (by simp [hpj]),
          List.find?_cons_of_pos _ (by simp [hpj])]
      · rw [List.find?_cons_of_neg _ (by simp [hpj]),
          List.find?_cons_of_neg _ (by simp [hpj])]
        exact ih

theorem lookupKey_upsert {α : Type} (m : List (String × α)) (k j : String)
    (v : α) :
    lookupKey (upsert m k v) j = if j = k then some v else lookupKey m j := by
  by_cases h : j = k
  · subst h
    rw [lookupKey, upsert, List.find?_append, find_filter_ne]
    simp [List.find?]
  · have hkj : ¬ k = j := fun hh => h hh.symm
    rw [lookupKey, upsert, List.find?_append, find_filter_ne_other k j h]
    cases hf : List.find? (fun p => decide (p.1 = j)) m with
    | none =>
      simp only [hf, Option.none_or]
      rw [List.find?_cons_of_neg _ (by simp [hkj])]
      simp [h, lookupKey, hf]
    | some x => simp [hf, lookupKey, h]

theorem lookupKey_eq_none {α : Type} (m : List (String × α)) (j : String)
    (h : j ∉ m.map Prod.fst) : lookupKey m j = none := by
  induction m with
  | nil => rfl
  | cons p rest ih =>
    simp only [List.map_cons, List.mem_cons] at h
    push_neg at h
    rw [lookupKey,
      List.find?_cons_of_neg _
        (by simp only [decide_eq_true_eq]; exact fun hh => h.1 hh.symm)]
    exact ih h.2

theorem mapsCopy_lookup (dst src : List (String × String)) (j : String)
    (h : (src.map Prod.fst).Nodup) :
    lookupKey (mapsCopy dst src)
      j = match lookupKey src j with
          | some v => some v
          | none => lookupKey dst j := by
  induction src generalizing dst with
  | nil => simp [mapsCopy, lookupKey]
  | cons p rest ih =>
    simp only [List.map_cons, List.nodup_cons] at h
    rw [mapsCopy, ih _ h.2]
    by_cases hj : j = p.1
    · have hnone : lookupKey rest j = none := by
        apply lookupKey_eq_none; rw [hj]; exact h.1
      have hcons : lookupKey (p :: rest) j = some p.2 := by
        rw [lookupKey, List.find?_cons_of_pos _ (by simp [hj.symm])]
        rfl
      rw [hnone, hcons, lookupKey_upsert]
      simp [hj]
    · have hcons : lookupKey (p :: rest) j = lookupKey rest j := by
        rw [lookupKey,
          List.find?_cons_of_neg _
            (by simp only [decide_eq_true_eq]; exact fun hh => hj hh.symm)]
        rfl
      rw [hcons, lookupKey_upsert, if_neg hj]

theorem classifyCard_cases (sd sec prim mean : ℚ) (hlt : sec < prim) :
    (classifyCard sd sec prim mean = .var ↔ sd > prim) ∧
    (classifyCard sd sec prim mean = .dirStr mean .p1 ↔ sec < sd ∧ sd ≤ prim) ∧
    (classifyCard sd sec prim mean = .dirStr mean .p2 ↔ sd ≤ sec) := by
  unfold classifyCard
  split_ifs with h1 h2
  · refine ⟨by simp [h1], ?_, ?_⟩
    · simp only [reduceCtorEq, false_iff]
      rintro ⟨h3, h4⟩
      exact absurd h1 (not_lt.mpr h4)
    · simp only [reduceCtorEq, false_iff, not_le]
      exact lt_trans hlt h1
  · refine ⟨by simp [h1], ?_, ?_⟩
    · simp only [CardLabel.dirStr.injEq, and_true, true_iff, eq_self_iff_true]
      exact ⟨h2, not_lt.mp h1⟩
    · have : DirPrecision.p1 ≠ DirPrecision.p2 := by simp
      simp only [CardLabel.dirStr.injEq, this, and_false, false_iff, not_le]
      exact h2
  · refine ⟨by simp [h1], ?_, ?_⟩
    · have : DirPrecision.p2 ≠ DirPrecision.p1 := by simp
      simp only [CardLabel.dirStr.injEq, this, and_false, false_iff]
      rintro ⟨h3, h4⟩
      exact h2 h3
    · simp only [CardLabel.dirStr.injEq, and_true, true_iff, eq_self_iff_true]
      exact not_lt.mp h2

theorem thresholds_ascending (i : String) (sec prim : ℚ)
    (h : stdDevThresholdsForWindDirIntervalCardinalResult i = .ok (sec, prim)) :
    sec < prim := by
  unfold stdDevThresholdsForWindDirIntervalCardinalResult at h
  split_ifs at h <;> simp_all <;> obtain ⟨rfl, rfl⟩ := h <;> norm_num

/-- Claim C1: for every due interval with a non-empty sample bucket, the
classification label is determined by the three-tier rule over the computed
standard deviation and the interval's two cutoffs: above the primary cutoff
the label is "VAR"; above the secondary but not the primary cutoff it is
the coarse 8-point compass string of the mean; at or below the secondary
cutoff (equality included) it is the fine 16-point compass string of the
mean. -/
theorem wind_classification_three_tier (i : String) (sec prim sd mean : ℚ)
    (h : stdDevThresholdsForWindDirIntervalCardinalResult i = .ok (sec, prim)) :
    (classifyCard sd sec prim mean = .var ↔ sd > prim) ∧
    (classifyCard sd sec prim mean = .dirStr mean .p1 ↔ sec < sd ∧ sd ≤ prim) ∧
    (classifyCard sd sec prim mean = .dirStr mean .p2 ↔ sd ≤ sec) :=
  classifyCard_cases sd sec prim mean (thresholds_ascending i sec prim h)

/-- Witness for C1 at the 1-hour interval, whose cutoffs are (38, 43):
a standard deviation of exactly 38 yields the fine label, 39 the coarse
label, and 44 the "VAR" label. -/
theorem wind_classification_three_tier_witness :
    stdDevThresholdsForWindDirIntervalCardinalResult "1h" = .ok (38, 43) ∧
    classifyCard 38 38 43 (180 : ℚ) = .dirStr 180 .p2 ∧
    classifyCard 39 38 43 (180 : ℚ) = .dirStr 180 .p1 ∧
    classifyCard 44 38 43 (180 : ℚ) = .var := by
  have hth : stdDevThresholdsForWindDirIntervalCardinalResult "1h"
      = .ok (38, 43) := by rfl
  refine ⟨hth, ?_, ?_, ?_⟩
  · exact (wind_classification_three_tier "1h" 38 43 38 180 hth).2.2.mpr
      (by norm_num)
  · exact (wind_classification_three_tier "1h" 38 43 39 180 hth).2.1.mpr
      (by norm_num)
  · exact (wind_classification_three_tier "1h" 38 43 44 180 hth).1.mpr
      (by norm_num)

theorem prewrite_point_time (args : WindDirectionAggArgs) (env : RunEnv)
    (now : Int) (p : Point) (h : prewrite args env now = .ok (.point p)) :
    p.time = now := by
  unfold prewrite at h
  repeat' split at h
  any_goals cases h
  rename_i hnp
  unfold newPoint at hnp
  split at hnp
  · cases hnp
  · cases hnp
    rfl

/-- Claim C3: within a single engine revision, the write path's timestamp
offset equals the offset the staleness read adds back.  In the midpoint
revisions the staleness reference minus the stored timestamp equals the run
time minus the written timestamp (both half the window); in the
window-end revision both offsets are zero, and the built point of the run
embedding is indeed stamped at the run time. -/
theorem timestamp_convention_consistent (interval : String) (t now : Int)
    (args : WindDirectionAggArgs) (env : RunEnv) (p : Point) :
    ((stalenessReferenceMid t interval).map (fun s => s - t)
        = (wdPointTimeMid now interval).map (fun w => now - w)) ∧
    (stalenessReferenceEnd t interval - t
        = now - wdPointTimeEnd now interval) ∧
    (prewrite args env now = .ok (.point p) →
        p.time = wdPointTimeEnd now interval) := by
  refine ⟨?_, by simp [stalenessReferenceEnd, wdPointTimeEnd], ?_⟩
  · unfold stalenessReferenceMid wdPointTimeMid windDirIntervalToDuration
    split_ifs <;> simp [Except.map, hour, minute, second]
  · intro h
    rw [wdPointTimeEnd]
    exact prewrite_point_time args env now p h

theorem staleness_no_prior (now : Int) (i : String) (r : Response)
    (he : r.err = "") (hs : r.results = [] ∨ r.results.headD [] = []) :
    stalenessStep now i (.resp r) = .ok true := by
  cases hr : r.results with
  | nil => simp [stalenessStep, he, hr]
  | cons res rest =>
    rcases hs with hs | hs
    · rw [hr] at hs; cases hs
    · rw [hr] at hs
      simp only [List.headD_cons] at hs
      simp [stalenessStep, he, hr, hs]

theorem staleness_prior (now : Int) (i : String) (m t : Int)
    (cols : List String) (extra : List Cell) (vrest : List (List Cell))
    (hm : maxTimeBetweenAggsForWindDirInterval i = .ok m) :
    stalenessStep now i
        (.resp ⟨[[⟨"time" :: cols, (Cell.timeStr (some t) :: extra) :: vrest⟩]],
          ""⟩)
      = .ok (decide (now - t > m)) := by
  simp [stalenessStep, goIndex, assertString, parseTime, hm]

/-- Claim C2: an interval is marked due exactly when no prior aggregate
point exists in range (no results or no series), or the elapsed time since
the most recent prior point's reference timestamp exceeds the interval's
maximum staleness; the 5-minute interval's maximum staleness is 2m30s, so
a stored 5-minute point 3 minutes old is due and one 1 minute old is not
due. -/
theorem staleness_planner_due_rule (now : Int) (i : String) (r : Response)
    (m t : Int) (cols : List String) (extra : List Cell)
    (vrest : List (List Cell)) :
    (r.err = "" → r.results = [] ∨ r.results.headD [] = [] →
      stalenessStep now i (.resp r) = .ok true) ∧
    (maxTimeBetweenAggsForWindDirInterval i = .ok m →
      stalenessStep now i
          (.resp ⟨[[⟨"time" :: cols,
            (Cell.timeStr (some t) :: extra) :: vrest⟩]], ""⟩)
        = .ok (decide (now - t > m))) ∧
    maxTimeBetweenAggsForWindDirInterval "5m"
      = .ok (2 * minute + 30 * second) ∧
    stalenessStep (3 * minute) "5m"
        (.resp ⟨[[⟨["time"], [[.timeStr (some 0)]]⟩]], ""⟩) = .ok true ∧
    stalenessStep (1 * minute) "5m"
        (.resp ⟨[[⟨["time"], [[.timeStr (some 0)]]⟩]], ""⟩) = .ok false :=
  ⟨staleness_no_prior now i r, staleness_prior now i m t cols extra vrest,
   by rfl, by rfl, by rfl⟩

/-- Witness for C2: with a response carrying no series the 6-hour interval
is due, and with a stored point two hours old (staleness cap one hour) it
is due as well. -/
theorem staleness_planner_due_rule_witness :
    stalenessStep 0 "6h" (.resp ⟨[], ""⟩) = .ok true ∧
    stalenessStep (2 * hour) "6h"
        (.resp ⟨[[⟨["time"], [[.timeStr (some 0)]]⟩]], ""⟩) = .ok true := by
  constructor
  · exact (staleness_planner_due_rule 0 "6h" ⟨[], ""⟩ 0 0 [] [] []).1 rfl
      (Or.inl rfl)
  · have h := (staleness_planner_due_rule (2 * hour) "6h" ⟨[], ""⟩ hour 0 []
      [] []).2.1 (by rfl)
    simpa [hour, minute, second] using h

theorem planAux_sublist (now : Int) :
    ∀ (l : List (String × QueryOutcome)) (acc todo : List String),
      planAux now l acc = .ok todo →
      ∃ s, todo = acc ++ s ∧ List.Sublist s (l.map Prod.fst) := by
  intro l
  induction l with
  | nil =>
    intro acc todo h
    cases h
    exact ⟨[], by simp, List.nil_sublist _⟩
  | cons p rest ih =>
    intro acc todo h
    simp only [planAux] at h
    split at h
    · cases h
    · rename_i due hstep
      obtain ⟨s, hs, hsub⟩ := ih _ _ h
      by_cases hdue : due = true
      · rw [if_pos hdue] at hs
        refine ⟨p.1 :: s, ?_, List.Sublist.cons₂ _ hsub⟩
        rw [hs, List.append_assoc]
        rfl
      · rw [if_neg hdue] at hs
        exact ⟨s, hs, List.Sublist.cons _ hsub⟩

theorem sublist_map_fst_zip {α β : Type} :
    ∀ (l1 : List α) (l2 : List β),
      List.Sublist ((l1.zip l2).map Prod.fst) l1 := by
  intro l1
  induction l1 with
  | nil => intro l2; simp
  | cons a l1 ih =>
    intro l2
    cases l2 with
    | nil => simp [List.zip_nil_right]
    | cons b l2 =>
      simp only [List.zip_cons_cons, List.map_cons]
      exact List.Sublist.cons₂ _ (ih l2)

theorem canonical_durations_sorted :
    (allWindDirectionIntervals.map durOfD).Pairwise (fun a b => b ≤ a) := by
  decide

theorem canonical_duration_ok :
    ∀ i ∈ allWindDirectionIntervals,
      windDirIntervalToDuration i = .ok (durOfD i) := by
  decide

/-- Claim C4: the due-interval list is a subsequence of the canonical
descending-duration enumeration, every due interval's duration lookup
succeeds, and the first due interval has the maximum duration among all
due intervals, so the bulk query's range (now minus the first due
interval's duration) covers the window of every due interval. -/
theorem due_intervals_canonical_order (now : Int) (qs : List QueryOutcome)
    (todo : List String) (h : planIntervals now qs = .ok todo) :
    List.Sublist todo allWindDirectionIntervals ∧
    (∀ i ∈ todo, windDirIntervalToDuration i = .ok (durOfD i)) ∧
    (∀ hne : todo ≠ [], ∀ i ∈ todo,
      durOfD i ≤ durOfD (todo.head hne) ∧
      now - durOfD (todo.head hne) ≤ now - durOfD i) := by
  obtain ⟨s, hs, hsub⟩ := planAux_sublist now _ [] todo h
  rw [List.nil_append] at hs
  subst hs
  have hsubc : List.Sublist todo allWindDirectionIntervals :=
    hsub.trans (sublist_map_fst_zip _ _)
  refine ⟨hsubc, ?_, ?_⟩
  · intro i hi
    exact canonical_duration_ok i (hsubc.subset hi)
  · intro hne i hi
    have hpair : (todo.map durOfD).Pairwise (fun a b => b ≤ a) :=
      List.Pairwise.sublist (hsubc.map durOfD) canonical_durations_sorted
    cases todo with
    | nil => exact absurd rfl hne
    | cons a tl =>
      simp only [List.head_cons]
      simp only [List.map_cons, List.pairwise_cons] at hpair
      rcases List.mem_cons.mp hi with rfl | hi
      · exact ⟨le_refl _, by omega⟩
      · have hle : durOfD i ≤ durOfD a :=
          hpair.1 _ (List.mem_map_of_mem durOfD hi)
        exact ⟨hle, by omega⟩

/-- Witness for C4: with every staleness probe returning no prior point all
six intervals are due, in canonical order, and the 5-minute interval's
duration is bounded by the first (6-hour) entry's duration. -/
theorem due_intervals_canonical_order_witness :
    planIntervals 0
        [.resp ⟨[], ""⟩, .resp ⟨[], ""⟩, .resp ⟨[], ""⟩, .resp ⟨[], ""⟩,
         .resp ⟨[], ""⟩, .resp ⟨[], ""⟩]
      = .ok allWindDirectionIntervals ∧
    List.Sublist allWindDirectionIntervals allWindDirectionIntervals ∧
    durOfD "5m" ≤ durOfD (allWindDirectionIntervals.head (by decide)) := by
  have h : planIntervals 0
      [.resp ⟨[], ""⟩, .resp ⟨[], ""⟩, .resp ⟨[], ""⟩, .resp ⟨[], ""⟩,
       .resp ⟨[], ""⟩, .resp ⟨[], ""⟩]
      = .ok allWindDirectionIntervals := by decide
  have hc := due_intervals_canonical_order 0
    [.resp ⟨[], ""⟩, .resp ⟨[], ""⟩, .resp ⟨[], ""⟩, .resp ⟨[], ""⟩,
     .resp ⟨[], ""⟩, .resp ⟨[], ""⟩] allWindDirectionIntervals h
  exact ⟨h, hc.1, (hc.2.2 (by decide) "5m" (by decide)).1⟩

theorem clampDeg_range (x : ℚ) : 0 ≤ clampDeg x ∧ clampDeg x < 360 := by
  unfold clampDeg
  constructor <;>
    nlinarith [Int.floor_le (x / 360), Int.lt_floor_add_one (x / 360)]

theorem canonical_nodup : allWindDirectionIntervals.Nodup := by decide

theorem bucketGet_upsert (bs : List (String × List ℚ)) (k j : String)
    (v : List ℚ) :
    bucketGet (upsert bs k v) j = if j = k then v else bucketGet bs j := by
  rw [bucketGet, lookupKey_upsert]
  split_ifs <;> simp [bucketGet]

theorem bucketGet_bucketAppend (bs : List (String × List ℚ)) (k j : String)
    (v : ℚ) :
    bucketGet (bucketAppend bs k v) j
      = if j = k then bucketGet bs k ++ [v] else bucketGet bs j := by
  rw [bucketAppend, bucketGet_upsert]

theorem admitRow_spec (now t : Int) (wd : ℚ) :
    ∀ (todo : List String) (bs : List (String × List ℚ)),
      todo.Nodup →
      (∀ i ∈ todo, windDirIntervalToDuration i = .ok (durOfD i)) →
      ∃ bs', admitRow now t wd todo bs = .ok bs' ∧
        ∀ j, bucketGet bs' j
          = bucketGet bs j ++
            (if j ∈ todo ∧ now - t ≤ durOfD j then [clampDeg wd] else []) := by
  intro todo
  induction todo with
  | nil =>
    intro bs _ _
    exact ⟨bs, rfl, fun j => by simp⟩
  | cons a rest ih =>
    intro bs hnd hok
    have ha := hok a (List.mem_cons_self a rest)
    have hnd' := List.nodup_cons.mp hnd
    obtain ⟨bs', hrun, hget⟩ :=
      ih (if now - t ≤ durOfD a then bucketAppend bs a (clampDeg wd) else bs)
        hnd'.2 (fun i hi => hok i (List.mem_cons_of_mem a hi))
    refine ⟨bs', ?_, ?_⟩
    · rw [admitRow, ha]
      exact hrun
    · intro j
      rw [hget j]
      by_cases hj : j = a
      · subst hj
        have hjrest : j ∉ rest := hnd'.1
        by_cases hca : now - t ≤ durOfD j
        · rw [if_pos hca, bucketGet_bucketAppend]
          simp [hjrest, hca]
        · rw [if_neg hca]
          simp [hjrest, hca]
      · have hbs1 : bucketGet
            (if now - t ≤ durOfD a then bucketAppend bs a (clampDeg wd) else bs)
            j = bucketGet bs j := by
          split_ifs with hca
          · rw [bucketGet_bucketAppend, if_neg hj]
          · rfl
        rw [hbs1]
        simp [List.mem_cons, hj]

theorem parseRow_good (now t : Int) (wd : ℚ) (todo : List String)
    (bs : List (String × List ℚ)) (rest : List Cell) :
    parseRow now todo bs
        (Cell.timeStr (some t) :: Cell.jsonNum (some wd) :: rest)
      = admitRow now t wd todo bs := by
  simp [parseRow, goIndex, assertString, parseTime, assertJSONNumber,
    parseFloat]

/-- Claim C5: a fetched row's sample is admitted to a due interval's bucket
exactly when its age relative to the run time does not exceed that
interval's duration; the admitted angle is the Degree clamp of the raw
angle, which always lies in the interval from 0 inclusive to 360
exclusive; and a sample may land in the bucket of each due interval whose
window fits it. -/
theorem row_admission_rule (now t : Int) (wd : ℚ) (todo : List String)
    (bs bs' : List (String × List ℚ)) (rest : List Cell) (j : String)
    (hsub : List.Sublist todo allWindDirectionIntervals)
    (hrun : parseRow now todo bs
        (Cell.timeStr (some t) :: Cell.jsonNum (some wd) :: rest) = .ok bs') :
    (0 ≤ clampDeg wd ∧ clampDeg wd < 360) ∧
    bucketGet bs' j
      = bucketGet bs j ++
        (if j ∈ todo ∧ now - t ≤ durOfD j then [clampDeg wd] else []) := by
  have hnd : todo.Nodup := List.Nodup.sublist hsub canonical_nodup
  have hok : ∀ i ∈ todo, windDirIntervalToDuration i = .ok (durOfD i) :=
    fun i hi => canonical_duration_ok i (hsub.subset hi)
  obtain ⟨bs'', hrun2, hget⟩ := admitRow_spec now t wd todo bs hnd hok
  rw [parseRow_good, hrun2] at hrun
  cases hrun
  exact ⟨clampDeg_range wd, hget j⟩

/-- Witness for C5: a fresh row with raw angle 10 is admitted to the due
5-minute bucket as the clamped angle. -/
theorem row_admission_rule_witness :
    parseRow 0 ["5m"] [("5m", [])]
        [Cell.timeStr (some 0), Cell.jsonNum (some 10)]
      = .ok [("5m", [clampDeg 10])] ∧
    (0 ≤ clampDeg 10 ∧ clampDeg 10 < 360) ∧
    bucketGet [("5m", [clampDeg 10])] "5m" = [] ++ [clampDeg 10] := by
  have hrun : parseRow 0 ["5m"] [("5m", [])]
      [Cell.timeStr (some 0), Cell.jsonNum (some 10)]
      = .ok [("5m", [clampDeg 10])] := by
    rw [parseRow_good]
    simp only [admitRow,
      show windDirIntervalToDuration "5m" = .ok (durOfD "5m") from by decide]
    rw [if_pos (show (0:ℤ) - 0 ≤ durOfD "5m" from by decide)]
    simp [bucketAppend, bucketGet, upsert, lookupKey]
  have hc := row_admission_rule 0 0 10 ["5m"] [("5m", [])]
    [("5m", [clampDeg 10])] [] "5m" (by decide) hrun
  refine ⟨hrun, hc.1, ?_⟩
  have hg := hc.2
  rwa [if_pos (show "5m" ∈ ["5m"] ∧ (0:ℤ) - 0 ≤ durOfD "5m" from
      ⟨by decide, by decide⟩),
    show bucketGet [("5m", ([] : List ℚ))] "5m" = [] from rfl] at hg

/-- Claim C9: ParseTags applied to the empty string returns an error, not
an empty tag map, while PartialWhereClauseForTags accepts the empty map and
produces the empty where-clause. -/
theorem parse_tags_empty_string_errors :
    ParseTags "" = .error "invalid tag: " ∧
    PartialWhereClauseForTags [] = "" := by
  refine ⟨?_, rfl⟩
  rfl

/-- Claim C10: the caller tags are copied into the written tag map after
the identity tag is inserted, so a caller binding for "aggregator"
overwrites the identity tag, and every other key reads as the union of the
identity tag and the caller tags. -/
theorem caller_tags_overwrite_identity (caller : List (String × String))
    (k : String) (h : (caller.map Prod.fst).Nodup) :
    lookupKey (mapsCopy (upsert [] "aggregator" aggregatorIdentityTag) caller)
      k = match lookupKey caller k with
          | some v => some v
          | none =>
            if k = "aggregator" then some aggregatorIdentityTag else none := by
  rw [mapsCopy_lookup _ _ _ h]
  rw [lookupKey_upsert]
  simp [lookupKey]

theorem wEnv_prewrite : prewrite wArgs wEnv 0 = .ok (.point wPoint) := by
  simp [prewrite, planIntervals, planAux, stalenessStep, goIndex, assertString,
    parseTime, maxTimeBetweenAggsForWindDirInterval, windDirIntervalToDuration,
    bulkSeries, bucketRows, parseRow, assertJSONNumber, parseFloat, admitRow,
    bucketAppend, bucketGet, lookupKey, upsert, initBuckets, initBuckets.go,
    buildFieldsAux, stdDevThresholdsForWindDirIntervalCardinalResult,
    classifyCard, clampDeg, newPoint, mapsCopy, aggregatorIdentityTag,
    ProductName, Version, wdMeanResultFieldName, wdStdDevResultFieldName,
    wdMeanIntercardinalResultFieldName, hour, minute, second,
    allWindDirectionIntervals, wdInterval6h, wdInterval3h, wdInterval1h,
    wdInterval30m, wdInterval15m, wdInterval5m, wArgs, wEnv, wPoint,
    staleResp, noPriorResp]
  norm_num

/-- Witness for C3: the midpoint-revision offsets agree at the 1-hour
interval, and a run of the window-end revision that builds a point stamps
it at the run time. -/
theorem timestamp_convention_consistent_witness :
    (stalenessReferenceMid 0 "1h").map (fun s => s - 0)
      = (wdPointTimeMid 100 "1h").map (fun w => 100 - w) ∧
    prewrite wArgs wEnv 0 = .ok (.point wPoint) ∧
    wPoint.time = wdPointTimeEnd 0 "1h" :=
  ⟨(timestamp_convention_consistent "1h" 0 100 wArgs wEnv wPoint).1,
   wEnv_prewrite,
   (timestamp_convention_consistent "1h" 0 0 wArgs wEnv wPoint).2.2
     wEnv_prewrite⟩

/-- Claim C6: when the run reaches the write stage and every attempt of the
bounded retry budget fails, the failure is logged and the run still
returns success. -/
theorem write_failure_swallowed (args : WindDirectionAggArgs) (env : RunEnv)
    (now : Int) (writeOk : Nat → Bool) (p : Point)
    (h : prewrite args env now = .ok (.point p))
    (hw : ∀ i, writeOk i = false) :
    windDirectionAgg args env now writeOk
      = (.ok, ["failed to write to Influx"]) := by
  have hr : retryDo args.influxWriteRetries writeOk = false := by
    simp [retryDo, hw]
  simp [windDirectionAgg, h, hr]

/-- Witness for C6: the concrete witness environment reaches the write
stage, and with every write attempt failing the run still succeeds while
logging the failure. -/
theorem write_failure_swallowed_witness :
    prewrite wArgs wEnv 0 = .ok (.point wPoint) ∧
    windDirectionAgg wArgs wEnv 0 (fun _ => false)
      = (.ok, ["failed to write to Influx"]) :=
  ⟨wEnv_prewrite,
   write_failure_swallowed wArgs wEnv 0 (fun _ => false) wPoint wEnv_prewrite
     (fun _ => rfl)⟩

/-- Witness for C10: with caller tags binding both "aggregator" and
"station", the written map reads the caller's aggregator value and the
station value, and an unrelated key is absent. -/
theorem caller_tags_overwrite_identity_witness :
    lookupKey
        (mapsCopy (upsert [] "aggregator" aggregatorIdentityTag)
          [("aggregator", "me"), ("station", "roof")]) "aggregator"
      = some "me" ∧
    lookupKey
        (mapsCopy (upsert [] "aggregator" aggregatorIdentityTag)
          [("aggregator", "me"), ("station", "roof")]) "station"
      = some "roof" := by
  constructor
  · rw [caller_tags_overwrite_identity
      [("aggregator", "me"), ("station", "roof")] "aggregator" (by decide)]
    rfl
  · rw [caller_tags_overwrite_identity
      [("aggregator", "me"), ("station", "roof")] "station" (by decide)]
    rfl

theorem bulkSeries_no_series (field : String) (r : Response)
    (he : r.err = "") (hs : r.results = [] ∨ r.results.headD [] = []) :
    bulkSeries field (.resp r) = .ok none := by
  cases hr : r.results with
  | nil => simp [bulkSeries, he, hr]
  | cons res rest =>
    rcases hs with hs | hs
    · rw [hr] at hs; cases hs
    · rw [hr] at hs
      simp only [List.headD_cons] at hs
      simp [bulkSeries, he, hr, hs]

theorem buildFields_skip_empty (field : String) (mf sf : List ℚ → ℚ)
    (buckets : List (String × List ℚ)) (i : String)
    (hbe : bucketGet buckets i = []) :
    ∀ (todo : List String) (fsAcc : List (String × FieldValue)),
      buildFieldsAux field mf sf buckets todo fsAcc
        = buildFieldsAux field mf sf buckets
            (todo.filter (fun j => j ≠ i)) fsAcc := by
  intro todo
  induction todo with
  | nil => intro fsAcc; rfl
  | cons a rest ih =>
    intro fsAcc
    by_cases hai : a = i
    · subst hai
      have : (bucketGet buckets a).length = 0 := by rw [hbe]; rfl
      rw [buildFieldsAux, if_pos this, List.filter_cons]
      rw [if_neg (by simp)]
      exact ih fsAcc
    · rw [List.filter_cons, if_pos (by simp [hai])]
      rw [buildFieldsAux, buildFieldsAux]
      by_cases hle : (bucketGet buckets a).length = 0
      · rw [if_pos hle, if_pos hle]
        exact ih fsAcc
      · rw [if_neg hle, if_neg hle]
        cases stdDevThresholdsForWindDirIntervalCardinalResult a with
        | error e => rfl
        | ok th => exact ih _

theorem run_ok_of_prewrite_ok (args : WindDirectionAggArgs) (env : RunEnv)
    (now : Int) (writeOk : Nat → Bool) (res : PrewriteResult)
    (h : prewrite args env now = .ok res) :
    (windDirectionAgg args env now writeOk).1 = .ok := by
  cases res <;> simp [windDirectionAgg, h]
  split <;> rfl

/-- Claim C7: absence of work or data is never an error: an empty plan
performs no further work and succeeds with a "nothing to do" log; an empty
bulk fetch succeeds with a "no data" log; a due interval whose bucket is
empty contributes none of its three fields to the output; and any run
whose pre-write phase succeeds completes without error. -/
theorem no_work_is_success
    (args : WindDirectionAggArgs) (qs : List QueryOutcome)
    (bulk : QueryOutcome) (mf sf : List ℚ → ℚ) (now : Int)
    (writeOk : Nat → Bool) (env : RunEnv) (r : Response)
    (todo : List String) (res : PrewriteResult) (field : String)
    (buckets : List (String × List ℚ)) (i : String)
    (fsAcc : List (String × FieldValue)) :
    (planIntervals now qs = .ok [] →
      windDirectionAgg args ⟨qs, bulk, mf, sf⟩ now writeOk
        = (.ok, ["no intervals to calculate"])) ∧
    (planIntervals now env.stalenessQs = .ok todo → todo ≠ [] →
      env.bulkQ = .resp r → r.err = "" →
      (r.results = [] ∨ r.results.headD [] = []) →
      windDirectionAgg args env now writeOk
        = (.ok, ["no data to aggregate"])) ∧
    (bucketGet buckets i = [] →
      buildFieldsAux field mf sf buckets todo fsAcc
        = buildFieldsAux field mf sf buckets
            (todo.filter (fun j => j ≠ i)) fsAcc) ∧
    (prewrite args env now = .ok res →
      (windDirectionAgg args env now writeOk).1 = .ok) := by
  refine ⟨?_, ?_, ?_, ?_⟩
  · intro h
    simp [windDirectionAgg, prewrite, h]
  · intro hplan hne hbulk herr hres
    have hlen : ¬ todo.length = 0 := by
      simpa [List.length_eq_zero] using hne
    have hb : bulkSeries args.windDirectionField env.bulkQ = .ok none := by
      rw [hbulk]
      exact bulkSeries_no_series _ r herr hres
    simp [windDirectionAgg, prewrite, hplan, hlen, hb]
  · intro hbe
    exact buildFields_skip_empty field mf sf buckets i hbe todo fsAcc
  · intro h
    exact run_ok_of_prewrite_ok args env now writeOk res h

/-- Witness for C7: fresh aggregates everywhere give the "nothing to do"
run; an all-due plan with an empty fetch gives the "no data" run; an empty
15-minute bucket contributes no fields; both runs end without error. -/
theorem no_work_is_success_witness :
    windDirectionAgg wArgs ⟨freshQs, .fail, fun _ => 0, fun _ => 0⟩ 0
        (fun _ => false)
      = (.ok, ["no intervals to calculate"]) ∧
    windDirectionAgg wArgs ⟨allDueQs, .resp ⟨[], ""⟩, fun _ => 0, fun _ => 0⟩
        0 (fun _ => false)
      = (.ok, ["no data to aggregate"]) ∧
    buildFieldsAux "wd" (fun _ => 0) (fun _ => 0) [("15m", []), ("5m", [])]
        ["15m", "5m"] []
      = buildFieldsAux "wd" (fun _ => 0) (fun _ => 0) [("15m", []), ("5m", [])]
          (["15m", "5m"].filter (fun j => j ≠ "15m")) [] ∧
    (windDirectionAgg wArgs ⟨freshQs, .fail, fun _ => 0, fun _ => 0⟩ 0
        (fun _ => false)).1 = .ok := by
  have h1 : planIntervals 0 freshQs = .ok [] := by decide
  have h2 : planIntervals 0 allDueQs = .ok allWindDirectionIntervals := by
    decide
  have h3 : prewrite wArgs ⟨freshQs, .fail, fun _ => 0, fun _ => 0⟩ 0
      = .ok .noIntervals := by
    simp [prewrite, h1]
  refine ⟨?_, ?_, ?_, ?_⟩
  · exact (no_work_is_success wArgs freshQs .fail (fun _ => 0) (fun _ => 0) 0
      (fun _ => false) ⟨freshQs, .fail, fun _ => 0, fun _ => 0⟩ ⟨[], ""⟩
      [] .noIntervals "wd" [] "x" []).1 h1
  · exact (no_work_is_success wArgs freshQs .fail (fun _ => 0) (fun _ => 0) 0
      (fun _ => false) ⟨allDueQs, .resp ⟨[], ""⟩, fun _ => 0, fun _ => 0⟩
      ⟨[], ""⟩ allWindDirectionIntervals .noIntervals "wd" [] "x" []).2.1 h2
      (by decide) rfl rfl (Or.inl rfl)
  · exact (no_work_is_success wArgs freshQs .fail (fun _ => 0) (fun _ => 0) 0
      (fun _ => false) ⟨freshQs, .fail, fun _ => 0, fun _ => 0⟩ ⟨[], ""⟩
      ["15m", "5m"] .noIntervals "wd" [("15m", []), ("5m", [])] "15m"
      []).2.2.1 (by decide)
  · exact (no_work_is_success wArgs freshQs .fail (fun _ => 0) (fun _ => 0) 0
      (fun _ => false) ⟨freshQs, .fail, fun _ => 0, fun _ => 0⟩ ⟨[], ""⟩
      [] .noIntervals "wd" [] "x" []).2.2.2 h3

theorem canonical_max_ok :
    ∀ i ∈ allWindDirectionIntervals,
      ∃ m, maxTimeBetweenAggsForWindDirInterval i = .ok m := by
  intro i hi
  fin_cases hi <;> exact ⟨_, rfl⟩

theorem wellTypedSeries_parts (s : Series) (h : wellTypedSeries s = true) :
    2 ≤ s.columns.length ∧ 1 ≤ s.values.length ∧
    ∀ row ∈ s.values, ∃ t v rl, row = Cell.timeStr t :: Cell.jsonNum v :: rl := by
  rw [wellTypedSeries, Bool.and_eq_true, Bool.and_eq_true] at h
  obtain ⟨⟨hc, hv⟩, hall⟩ := h
  refine ⟨by simpa using hc, by simpa using hv, ?_⟩
  intro row hrow
  have := (List.all_eq_true.mp hall) row hrow
  cases row with
  | nil => cases this
  | cons c0 rl0 =>
    cases rl0 with
    | nil => cases this
    | cons c1 rl =>
      rw [Bool.and_eq_true] at this
      cases c0 <;> simp [cellIsTime] at this
      cases c1 <;> simp [cellIsNum] at this
      · exact ⟨_, _, _, rfl⟩
theorem stalenessStep_noPanic (now : Int) (i : String) (q : QueryOutcome)
    (hq : wellTypedOutcome q = true) (hi : i ∈ allWindDirectionIntervals) :
    noPanic (stalenessStep now i q) := by
  intro msg
  cases q with
  | fail => simp [stalenessStep]
  | resp r =>
    rw [stalenessStep]
    split_ifs with h1 h2 h3 h4
    · simp
    · simp
    · simp
    · simp
    · push_neg at h2
      obtain ⟨hr0, hh0⟩ := h2
      cases hres : r.results with
      | nil => exact absurd (by simp [hres]) hr0
      | cons res rest =>
        cases rest with
        | cons x xs => exact absurd (by simp [hres]) h3
        | nil =>
          rw [hres] at hh0
          simp only [List.headD_cons] at hh0
          cases hs : res with
          | nil => exact absurd (by simp [hs]) hh0
          | cons s stl =>
            cases stl with
            | cons y ys => exact absurd (by simp [hres, hs]) h4
            | nil =>
              have hwt : wellTypedSeries s = true := by
                rw [wellTypedOutcome, wellTypedResponse, hres, hs] at hq
                simpa using hq
              obtain ⟨hc2, hv1, hrows⟩ := wellTypedSeries_parts s hwt
              cases hcols : s.columns with
              | nil => rw [hcols] at hc2; cases hc2
              | cons c0 ctl =>
                cases hvals : s.values with
                | nil => rw [hvals] at hv1; cases hv1
                | cons row vtl =>
                  obtain ⟨t, v, rl, hrow⟩ :=
                    hrows row (by rw [hvals]; exact List.mem_cons_self _ _)
                  obtain ⟨m, hm⟩ := canonical_max_ok i hi
                  cases t with
                  | none =>
                    simp only [hres, hs, hcols, hvals, hrow, goIndex,
                      assertString, parseTime, hm, List.get?]
                    split <;> simp
                  | some tv =>
                    simp only [hres, hs, hcols, hvals, hrow, goIndex,
                      assertString, parseTime, hm, List.get?]
                    split <;> simp
theorem bulkSeries_analysis (field : String) (q : QueryOutcome)
    (hq : wellTypedOutcome q = true) :
    noPanic (bulkSeries field q) ∧
    (∀ s, bulkSeries field q = .ok (some s) → wellTypedSeries s = true) := by
  cases q with
  | fail =>
    constructor
    · intro msg; simp [bulkSeries]
    · intro s h; cases h
  | resp r =>
    rw [bulkSeries]
    split_ifs with h1 h2 h3 h4
    · exact ⟨fun msg => by simp, fun s h => by cases h⟩
    · exact ⟨fun msg => by simp, fun s h => by cases h⟩
    · exact ⟨fun msg => by simp, fun s h => by cases h⟩
    · exact ⟨fun msg => by simp, fun s h => by cases h⟩
    · push_neg at h2
      obtain ⟨hr0, hh0⟩ := h2
      cases hres : r.results with
      | nil => exact absurd (by simp [hres]) hr0
      | cons res rest =>
        cases rest with
        | cons x xs => exact absurd (by simp [hres]) h3
        | nil =>
          rw [hres] at hh0
          simp only [List.headD_cons] at hh0
          cases hs : res with
          | nil => exact absurd (by simp [hs]) hh0
          | cons s0 stl =>
            cases stl with
            | cons y ys => exact absurd (by simp [hres, hs]) h4
            | nil =>
              have hwt : wellTypedSeries s0 = true := by
                rw [wellTypedOutcome, wellTypedResponse, hres, hs] at hq
                simpa using hq
              obtain ⟨hc2, hv1, hrows⟩ := wellTypedSeries_parts s0 hwt
              cases hcols : s0.columns with
              | nil => rw [hcols] at hc2; cases hc2
              | cons c0 ctl =>
                cases ctl with
                | nil => rw [hcols] at hc2; simp at hc2
                | cons c1 ctl2 =>
                  constructor
                  · intro msg
                    simp only [hres, hs, hcols, goIndex, List.get?]
                    split_ifs <;> simp
                  · intro s h
                    simp only [hres, hs, hcols, goIndex, List.get?] at h
                    split at h
                    · cases h
                    · split at h
                      · cases h
                      · cases h
                        exact hwt
theorem planAux_noPanic (now : Int) :
    ∀ (l : List (String × QueryOutcome)) (acc : List String),
      (∀ p ∈ l, p.1 ∈ allWindDirectionIntervals ∧
        wellTypedOutcome p.2 = true) →
      noPanic (planAux now l acc) := by
  intro l
  induction l with
  | nil =>
    intro acc _ msg
    simp [planAux]
  | cons p rest ih =>
    intro acc hl msg
    rw [planAux]
    cases hs : stalenessStep now p.1 p.2 with
    | error e =>
      have hnp := stalenessStep_noPanic now p.1 p.2
        (hl p (List.mem_cons_self _ _)).2 (hl p (List.mem_cons_self _ _)).1
      cases e with
      | panicked m => exact absurd hs (hnp m)
      | errored m => simp
    | ok due =>
      exact ih _ (fun p2 hp2 => hl p2 (List.mem_cons_of_mem _ hp2)) msg

theorem parseRow_noPanic (now : Int) (todo : List String)
    (bs : List (String × List ℚ)) (row : List Cell)
    (hnd : todo.Nodup)
    (hok : ∀ i ∈ todo, windDirIntervalToDuration i = .ok (durOfD i))
    (hrow : ∃ t v rl, row = Cell.timeStr t :: Cell.jsonNum v :: rl) :
    noPanic (parseRow now todo bs row) := by
  intro msg
  obtain ⟨t, v, rl, hr⟩ := hrow
  subst hr
  cases t with
  | none => simp [parseRow, goIndex, assertString, parseTime]
  | some tv =>
    cases v with
    | none =>
      simp [parseRow, goIndex, assertString, parseTime, assertJSONNumber,
        parseFloat]
    | some wd =>
      obtain ⟨bs', hrun, _⟩ := admitRow_spec now tv wd todo bs hnd hok
      simp [parseRow, goIndex, assertString, parseTime, assertJSONNumber,
        parseFloat, hrun]

theorem bucketRows_noPanic (now : Int) (todo : List String)
    (hnd : todo.Nodup)
    (hok : ∀ i ∈ todo, windDirIntervalToDuration i = .ok (durOfD i)) :
    ∀ (rows : List (List Cell)) (bs : List (String × List ℚ)),
      (∀ row ∈ rows, ∃ t v rl,
        row = Cell.timeStr t :: Cell.jsonNum v :: rl) →
      noPanic (bucketRows now todo rows bs) := by
  intro rows
  induction rows with
  | nil =>
    intro bs _ msg
    simp [bucketRows]
  | cons row rest ih =>
    intro bs hall msg
    rw [bucketRows]
    cases hp : parseRow now todo bs row with
    | error e =>
      have hnp := parseRow_noPanic now todo bs row hnd hok
        (hall row (List.mem_cons_self _ _))
      cases e with
      | panicked m => exact absurd hp (hnp m)
      | errored m => simp
    | ok bs' =>
      exact ih _ (fun r2 hr2 => hall r2 (List.mem_cons_of_mem _ hr2)) msg

theorem canonical_thresholds_ok :
    ∀ i ∈ allWindDirectionIntervals,
      ∃ th, stdDevThresholdsForWindDirIntervalCardinalResult i = .ok th := by
  intro i hi
  fin_cases hi <;> exact ⟨_, rfl⟩

theorem buildFields_noPanic (field : String) (mf sf : List ℚ → ℚ)
    (buckets : List (String × List ℚ)) :
    ∀ (todo : List String) (fsAcc : List (String × FieldValue)),
      (∀ i ∈ todo, i ∈ allWindDirectionIntervals) →
      noPanic (buildFieldsAux field mf sf buckets todo fsAcc) := by
  intro todo
  induction todo with
  | nil =>
    intro fsAcc _ msg
    simp [buildFieldsAux]
  | cons a rest ih =>
    intro fsAcc hmem msg
    rw [buildFieldsAux]
    split_ifs with hle
    · exact ih fsAcc (fun i hi => hmem i (List.mem_cons_of_mem _ hi)) msg
    · obtain ⟨th, hth⟩ :=
        canonical_thresholds_ok a (hmem a (List.mem_cons_self _ _))
      rw [hth]
      exact ih _ (fun i hi => hmem i (List.mem_cons_of_mem _ hi)) msg
theorem prewrite_noPanic (args : WindDirectionAggArgs) (env : RunEnv)
    (now : Int) (he : wellTypedEnv env = true) :
    noPanic (prewrite args env now) := by
  intro msg
  rw [wellTypedEnv, Bool.and_eq_true] at he
  obtain ⟨hqs, hbulk⟩ := he
  have hzip : ∀ p ∈ allWindDirectionIntervals.zip env.stalenessQs,
      p.1 ∈ allWindDirectionIntervals ∧ wellTypedOutcome p.2 = true := by
    intro p hp
    obtain ⟨hp1, hp2⟩ := List.of_mem_zip hp
    exact ⟨hp1, (List.all_eq_true.mp hqs) p.2 hp2⟩
  rw [prewrite]
  split
  · rename_i e heq
    have hnp := planAux_noPanic now _ [] hzip
    cases e with
    | panicked m => exact absurd heq (hnp m)
    | errored m => simp
  · rename_i todo heq
    split_ifs with hlen
    · simp
    · have hsub : List.Sublist todo allWindDirectionIntervals := by
        obtain ⟨s, hs, hsubz⟩ := planAux_sublist now _ [] todo heq
        rw [List.nil_append] at hs
        subst hs
        exact hsubz.trans (sublist_map_fst_zip _ _)
      have hnd : todo.Nodup := List.Nodup.sublist hsub canonical_nodup
      have hdok : ∀ i ∈ todo, windDirIntervalToDuration i = .ok (durOfD i) :=
        fun i hi => canonical_duration_ok i (hsub.subset hi)
      obtain ⟨hbnp, hbwt⟩ := bulkSeries_analysis args.windDirectionField
        env.bulkQ hbulk
      split
      · rename_i e heq2
        cases e with
        | panicked m => exact absurd heq2 (hbnp m)
        | errored m => simp
      · simp
      · rename_i s heq2
        have hswt := hbwt s heq2
        obtain ⟨hcl, hvl, hrows⟩ := wellTypedSeries_parts s hswt
        split
        · rename_i e heq3
          have hbrnp := bucketRows_noPanic now todo hnd hdok s.values
            (initBuckets todo) hrows
          cases e with
          | panicked m => exact absurd heq3 (hbrnp m)
          | errored m => simp
        · rename_i buckets heq3
          split
          · rename_i e heq4
            have hbfnp := buildFields_noPanic args.windDirectionField
              env.meanFn env.stdFn buckets todo []
              (fun i hi => hsub.subset hi)
            cases e with
            | panicked m => exact absurd heq4 (hbfnp m)
            | errored m => simp
          · rename_i fields heq4
            split
            · rename_i e heq5
              rw [newPoint] at heq5
              split_ifs at heq5
              cases heq5
              simp
            · simp
/-- Claim C8 (amended): the engine panics only on an interval identifier
absent from the policy lookup tables or on a malformed query result (a
cell whose dynamic type is not the expected string or json.Number, or a
series lacking an indexed column, row, or cell); on well-shaped responses
every failure, including parse and schema mismatches, surfaces as a
returned error and the run never panics. -/
theorem engine_no_panic_on_well_typed (args : WindDirectionAggArgs)
    (env : RunEnv) (now : Int) (writeOk : Nat → Bool)
    (he : wellTypedEnv env = true) :
    ∀ msg, (windDirectionAgg args env now writeOk).1 ≠ .panicked msg := by
  intro msg
  rw [windDirectionAgg]
  split
  · rename_i m heq
    exact absurd heq (prewrite_noPanic args env now he m)
  · simp
  · simp
  · simp
  · split_ifs <;> simp

/-- Counterexample to C8 as stated: a staleness response whose time cell
is a json.Number makes the run panic on the failed Go type assertion even
though every interval identifier resolves in the policy tables. -/
theorem engine_panics_on_bad_cell :
    (windDirectionAgg wArgs badCellEnv 0 (fun _ => false)).1
      = .panicked "interface conversion: not a string" := by decide

/-- Witness for the amended C8: an all-failure environment is well shaped
and its run does not panic. -/
theorem engine_no_panic_on_well_typed_witness :
    wellTypedEnv allFailEnv = true ∧
    (windDirectionAgg wArgs allFailEnv 0 (fun _ => false)).1
      ≠ .panicked "interface conversion: not a string" :=
  ⟨by decide,
   engine_no_panic_on_well_typed wArgs allFailEnv 0 (fun _ => false)
     (by decide) _⟩
end WxAgg
